import Mathlib

/-!
Verification of the Objockey core library (`src/@objockey/core/lib/index.js`
and its hand-written source `src/unnamed/part_000`, which transpile to the
same behavior).  The class `ObjockeyObject` owns a single JS value in its
private field `#internal` and exposes callback-driven traversal, search,
aggregation and mutation operations over it.

The embedding models JS values as the inductive `JsValue` (numbers are
modelled as integers, covering both the `number` and `bigint` results the
source filters on; IEEE-float behavior is outside the model).  Methods are
translated line by line from the source; methods that can assign
`#internal` or throw are modelled as functions returning the pair of the
buffer after the call and the optionally thrown error.
-/

namespace Objockey

/-- Model of a JS value: undefined, null, boolean, number (as integer),
string, array, or plain object (entries in insertion order). -/
inductive JsValue : Type where
  | vUndefined : JsValue
  | vNull : JsValue
  | vBool : Bool → JsValue
  | vNum : Int → JsValue
  | vStr : String → JsValue
  | vArr : List JsValue → JsValue
  | vObj : List (String × JsValue) → JsValue

/-- Errors thrown by the source or by the host builtins it calls. -/
inductive JsError : Type where
  | syntaxError (msg : String) : JsError
  | objockeyError (msg : String) : JsError
  | referenceError (msg : String) : JsError
  | typeError (msg : String) : JsError
deriving DecidableEq

/-- Callbacks receive the three arguments the source passes:
value-or-key, index-or-value, and a buffer. -/
abbrev Callback := JsValue → JsValue → JsValue → JsValue

/-- JS index argument, passed to callbacks as a number. -/
def idxVal (i : Nat) : JsValue := .vNum (Int.ofNat i)

/-- JS truthiness of a value (`if (x)`); 0 and the empty string are falsy. -/
def truthy : JsValue → Bool
  | .vUndefined => false
  | .vNull => false
  | .vBool b => b
  | .vNum n => n != 0
  | .vStr s => s != ""
  | .vArr _ => true
  | .vObj _ => true

/-- JS `typeof` of a modelled value. -/
def typeofJs : JsValue → String
  | .vUndefined => "undefined"
  | .vNull => "object"
  | .vBool _ => "boolean"
  | .vNum _ => "number"
  | .vStr _ => "string"
  | .vArr _ => "object"
  | .vObj _ => "object"

/-- Whether the value is the JS undefined value. -/
def isUndefined : JsValue → Bool
  | .vUndefined => true
  | _ => false

/-- Numeric callback result filter used by average and median: the source
keeps results whose typeof is number or bigint (both are vNum here). -/
def asNum : JsValue → Option Int
  | .vNum n => some n
  | _ => none

/-- Elements of an array value (call sites guard with isArray). -/
def arrElems : JsValue → List JsValue
  | .vArr es => es
  | _ => []

/-- Entries of an object value (call sites guard with isObject after
the isArray check, so only vObj reaches them). -/
def objEntries : JsValue → List (String × JsValue)
  | .vObj es => es
  | _ => []

/-- Enumerable own entries seen by a JS for-in loop (also the entries
copied by object spread): object entries; index-keyed elements for an
array; index-keyed one-character strings for a string; nothing for other
primitives. -/
def forInEntries : JsValue → List (String × JsValue)
  | .vObj es => es
  | .vArr es => es.enum.map (fun p => (toString p.1, p.2))
  | .vStr s => s.data.enum.map (fun p => (toString p.1, .vStr (String.singleton p.2)))
  | _ => []

/-- JS object property write on an entry list: an existing key keeps its
position and gets the new value, a new key is appended. -/
def objInsert : List (String × JsValue) → String → JsValue → List (String × JsValue)
  | [], k, v => [(k, v)]
  | (k1, v1) :: rest, k, v =>
    if k1 = k then (k1, v) :: rest else (k1, v1) :: objInsert rest k v

/-- First-match lookup in an entry list (JS property read). -/
def objLookup : List (String × JsValue) → String → Option JsValue
  | [], _ => none
  | (k1, v1) :: rest, k => if k = k1 then some v1 else objLookup rest k

/-- Assign each entry in order onto an accumulator (the tail of a JS
object spread). -/
def spreadEntries : List (String × JsValue) → List (String × JsValue) → List (String × JsValue)
  | acc, [] => acc
  | acc, (k, v) :: rest => spreadEntries (objInsert acc k v) rest

/-- JS object spread of an arbitrary value onto an accumulator: objects,
arrays and strings contribute their enumerable own entries; other
primitives contribute nothing. -/
def spreadInto (acc : List (String × JsValue)) (v : JsValue) : List (String × JsValue) :=
  spreadEntries acc (forInEntries v)

/-- Last-entry-wins lookup in an entry list: the value of the last entry
carrying the key.  Spreading an entry list assigns its entries in order,
so the last duplicate is the one that survives; on the duplicate-free
lists that real JS objects produce this agrees with objLookup. -/
def objLookupLast : List (String × JsValue) → String → Option JsValue
  | [], _ => none
  | (k1, v1) :: rest, k =>
    match objLookupLast rest k with
    | some v => some v
    | none => if k = k1 then some v1 else none

-- ## The host JSON.parse builtin

/-- Left brace character, written by code to keep braces out of literals. -/
def lbrace : Char := Char.ofNat 123

/-- Right brace character. -/
def rbrace : Char := Char.ofNat 125

/-- Skip JSON whitespace. -/
def skipWs : List Char → List Char
  | c :: cs => if c = ' ' ∨ c = '\t' ∨ c = '\n' ∨ c = '\r' then skipWs cs else c :: cs
  | [] => []

/-- Accumulate decimal digits. -/
def digitsAux : List Char → Nat → Nat × List Char
  | c :: cs, acc =>
    if c.isDigit then digitsAux cs (acc * 10 + (c.toNat - 48)) else (acc, c :: cs)
  | [], acc => (acc, [])

/-- Finish a number literal: the model covers the integer fragment of
JSON, so a fraction or exponent tail is rejected. -/
def numTail (n : Int) : List Char → Except String (JsValue × List Char)
  | c :: cs =>
    if c = '.' ∨ c = 'e' ∨ c = 'E' then .error "non-integer JSON number literal"
    else .ok (.vNum n, c :: cs)
  | [] => .ok (.vNum n, [])

/-- Parse a JSON number (integer fragment). -/
def parseNum : List Char → Except String (JsValue × List Char)
  | '-' :: c :: cs =>
    if c.isDigit then
      let p := digitsAux (c :: cs) 0
      numTail (-(p.1 : Int)) p.2
    else .error "Unexpected token -"
  | '-' :: [] => .error "Unexpected end of JSON input"
  | c :: cs =>
    if c.isDigit then
      let p := digitsAux (c :: cs) 0
      numTail (p.1 : Int) p.2
    else .error "Unexpected token"
  | [] => .error "Unexpected end of JSON input"

/-- Parse the body of a JSON string after the opening quote, handling the
simple escapes of the modelled fragment. -/
def parseStr : List Char → List Char → Option (String × List Char)
  | '"' :: cs, acc => some (String.mk acc.reverse, cs)
  | '\\' :: e :: cs, acc =>
    if e = '"' ∨ e = '\\' ∨ e = '/' then parseStr cs (e :: acc)
    else if e = 'n' then parseStr cs ('\n' :: acc)
    else if e = 't' then parseStr cs ('\t' :: acc)
    else if e = 'r' then parseStr cs ('\r' :: acc)
    else none
  | '\\' :: [], _ => none
  | c :: cs, acc => parseStr cs (c :: acc)
  | [], _ => none

/-- Parser modes: a value, the items of an array after the first open
bracket, or the entries of an object. -/
inductive PMode : Type where
  | val : PMode
  | arrItems (acc : List JsValue) : PMode
  | objItems (acc : List (String × JsValue)) : PMode

/-- Fuel-indexed recursive-descent JSON reader (structural recursion on
the fuel so that the kernel can evaluate it). -/
def parseP : Nat → PMode → List Char → Except String (JsValue × List Char)
  | 0, _, _ => .error "JSON input too deeply nested for fuel"
  | fuel + 1, .val, input =>
    (match skipWs input with
     | [] => .error "Unexpected end of JSON input"
     | c :: cs =>
       if c = 'n' then
         match cs with
         | 'u' :: 'l' :: 'l' :: rest => .ok (.vNull, rest)
         | _ => .error "Unexpected token n"
       else if c = 't' then
         match cs with
         | 'r' :: 'u' :: 'e' :: rest => .ok (.vBool true, rest)
         | _ => .error "Unexpected token t"
       else if c = 'f' then
         match cs with
         | 'a' :: 'l' :: 's' :: 'e' :: rest => .ok (.vBool false, rest)
         | _ => .error "Unexpected token f"
       else if c = '"' then
         match parseStr cs [] with
         | some (s, rest) => .ok (.vStr s, rest)
         | none => .error "Unterminated string in JSON"
       else if c = '[' then
         match skipWs cs with
         | ']' :: rest => .ok (.vArr [], rest)
         | rest => parseP fuel (.arrItems []) rest
       else if c = lbrace then
         match skipWs cs with
         | d :: rest =>
           if d = rbrace then .ok (.vObj [], rest)
           else parseP fuel (.objItems []) (d :: rest)
         | [] => .error "Unexpected end of JSON input"
       else if c = '-' ∨ c.isDigit then parseNum (c :: cs)
       else .error "Unexpected token")
  | fuel + 1, .arrItems acc, input =>
    (match parseP fuel .val input with
     | .error e => .error e
     | .ok (v, rest) =>
       match skipWs rest with
       | ',' :: rest2 => parseP fuel (.arrItems (acc ++ [v])) rest2
       | ']' :: rest2 => .ok (.vArr (acc ++ [v]), rest2)
       | _ => .error "Expected comma or close bracket in JSON array")
  | fuel + 1, .objItems acc, input =>
    (match skipWs input with
     | c :: cs =>
       if c = '"' then
         match parseStr cs [] with
         | some (k, rest) =>
           (match skipWs rest with
            | ':' :: rest2 =>
              (match parseP fuel .val rest2 with
               | .error e => .error e
               | .ok (v, rest3) =>
                 match skipWs rest3 with
                 | ',' :: rest4 => parseP fuel (.objItems (objInsert acc k v)) rest4
                 | d :: rest4 =>
                   if d = rbrace then .ok (.vObj (objInsert acc k v), rest4)
                   else .error "Expected comma or close brace in JSON object"
                 | [] => .error "Unexpected end of JSON input")
            | _ => .error "Expected colon in JSON object")
         | none => .error "Unterminated string in JSON"
       else .error "Expected string key in JSON object"
     | [] => .error "Unexpected end of JSON input")

/-- Modelled from the host `JSON.parse` builtin (an external collaborator
of the source, not repository code): parse a complete JSON text; every
failure is a SyntaxError, as thrown by the host parser.  The model covers
the integer-number fragment of JSON. -/
def jsonParse (s : String) : Except JsError JsValue :=
  match parseP (2 * s.length + 2) .val s.data with
  | .error m => .error (.syntaxError m)
  | .ok (v, rest) =>
    match skipWs rest with
    | [] => .ok v
    | _ => .error (.syntaxError "Unexpected non-whitespace character after JSON data")

-- ## The host ToString coercion

/-- Fuel-indexed JS string coercion: arrays join their elements with
commas (null and undefined elements become empty), plain objects coerce
to the fixed object tag string. -/
def jsToStringF : Nat → JsValue → String
  | _, .vUndefined => "undefined"
  | _, .vNull => "null"
  | _, .vBool b => cond b "true" "false"
  | _, .vNum n => toString n
  | _, .vStr s => s
  | _, .vObj _ => "[object Object]"
  | 0, .vArr _ => ""
  | fuel + 1, .vArr es =>
    String.intercalate "," (es.map (fun v =>
      match v with
      | .vUndefined => ""
      | .vNull => ""
      | w => jsToStringF fuel w))

/-- Modelled from the host string coercion applied by `JSON.parse` to a
non-string argument and by template literals.  The fuel bounds the array
nesting depth the coercion descends into; values nested deeper than this
bound are outside the model. -/
def jsToString (v : JsValue) : String := jsToStringF 1000000 v

-- ## The ObjockeyObject methods (translated from the source)

namespace ObjockeyObject

/-- The isArray predicate (source ll.528-533): true exactly for arrays. -/
def isArray : JsValue → Bool
  | .vArr _ => true
  | _ => false

/-- The isObject predicate (source ll.541-546): typeof is object and the
value is not null, which is true for plain objects and for arrays. -/
def isObject : JsValue → Bool
  | .vObj _ => true
  | .vArr _ => true
  | _ => false

/-- Helper for the catch clause of the constructor (source ll.31-37): a
SyntaxError from the parse is rethrown, any other error kind is swallowed
and the buffer stays unset. -/
def constructParse : Except JsError JsValue → JsValue × Option JsError
  | .ok v => (v, none)
  | .error e =>
    match e with
    | .syntaxError m => (.vUndefined, some (.syntaxError m))
    | _ => (.vUndefined, none)

/-- Constructor (source ll.20-38), returning the buffer after
construction together with the optionally thrown error.  The private
field starts out undefined; the structured branch (ll.21-24) returns
early without assigning it; the empty string leaves it unset (ll.26-29);
any other source is coerced to text and given to the host JSON parser. -/
def construct (source : JsValue) : JsValue × Option JsError :=
  match source with
  | .vArr _ => (.vUndefined, none)
  | .vObj _ => (.vUndefined, none)
  | .vStr s => if s = "" then (.vUndefined, none) else constructParse (jsonParse s)
  | prim => constructParse (jsonParse (jsToString prim))

/-- Loop of the average method over an array buffer (source ll.187-196):
accumulate the sum and the count of numeric callback results. -/
def avgArrGo (internal : JsValue) (cb : Callback) :
    List JsValue → Nat → Int → Nat → Int × Nat
  | [], _, calculation, count => (calculation, count)
  | v :: rest, i, calculation, count =>
    match asNum (cb v (idxVal i) internal) with
    | some n => avgArrGo internal cb rest (i + 1) (calculation + n) (count + 1)
    | none => avgArrGo internal cb rest (i + 1) calculation count

/-- Loop of the average method over an object buffer (source ll.197-205). -/
def avgObjGo (internal : JsValue) (cb : Callback) :
    List (String × JsValue) → Int → Nat → Int × Nat
  | [], calculation, count => (calculation, count)
  | (k, v) :: rest, calculation, count =>
    match asNum (cb (.vStr k) v internal) with
    | some n => avgObjGo internal cb rest (calculation + n) (count + 1)
    | none => avgObjGo internal cb rest calculation count

/-- The accumulation phase of average (source ll.185-205). -/
def avgSums (internal : JsValue) (cb : Callback) : Int × Nat :=
  if isArray internal then avgArrGo internal cb (arrElems internal) 0 0 0
  else if isObject internal then avgObjGo internal cb (forInEntries internal) 0 0
  else (0, 0)

/-- The average method (source ll.184-208).  The return statement on
l.207 reads the identifier named average, which is not a bound variable
inside the method body (the accumulator is named calculation), so every
call throws a ReferenceError after the traversal. -/
def average (internal : JsValue) (cb : Callback) : Except JsError JsValue :=
  let _sums := avgSums internal cb
  .error (.referenceError "average is not defined")

/-- Median collection loop over an array buffer (source ll.220-228). -/
def medArrGo (internal : JsValue) (cb : Callback) : List JsValue → Nat → List Int
  | [], _ => []
  | v :: rest, i =>
    match asNum (cb v (idxVal i) internal) with
    | some n => n :: medArrGo internal cb rest (i + 1)
    | none => medArrGo internal cb rest (i + 1)

/-- Median collection loop over a for-in enumeration (source ll.229-236). -/
def medObjGo (internal : JsValue) (cb : Callback) : List (String × JsValue) → List Int
  | [] => []
  | (k, v) :: rest =>
    match asNum (cb (.vStr k) v internal) with
    | some n => n :: medObjGo internal cb rest
    | none => medObjGo internal cb rest

/-- Insert into an ascending list (model of the comparator sort). -/
def sortInsert (x : Int) : List Int → List Int
  | [] => [x]
  | y :: ys => if x ≤ y then x :: y :: ys else y :: sortInsert x ys

/-- Ascending sort, modelling the source sort with the numeric
comparator (source l.237). -/
def sortAsc : List Int → List Int
  | [] => []
  | x :: xs => sortInsert x (sortAsc xs)

/-- JS array element read at the exact rational index num / den: a
non-integral index is an absent property and reads as undefined, an
integral index out of range also reads as undefined. -/
def jsReadFrac (xs : List Int) (num den : Nat) : JsValue :=
  if den ≠ 0 ∧ num % den = 0 then
    match xs.get? (num / den) with
    | some n => .vNum n
    | none => .vUndefined
  else .vUndefined

/-- The median method (source ll.217-243).  The second collection guard
on l.229 is a separate if (not an else-if), and isObject is also true of
arrays, so an array buffer additionally runs the for-in loop over its
index keys.  The indexing on ll.238-242 uses JS float division: for an
odd count the index count / 2 is non-integral, and for an even count the
second index is count / 2 + 1 = (count + 2) / 2. -/
def median (internal : JsValue) (cb : Callback) : JsValue :=
  let matched :=
    (if isArray internal then medArrGo internal cb (arrElems internal) 0 else []) ++
    (if isObject internal then medObjGo internal cb (forInEntries internal) else [])
  let sorted := sortAsc matched
  if sorted.length % 2 = 0 then
    .vArr [jsReadFrac sorted sorted.length 2, jsReadFrac sorted (sorted.length + 2) 2]
  else
    .vArr [jsReadFrac sorted sorted.length 2]

/-- Filter loop over an array buffer (source ll.259-266): keep the
values whose callback result is truthy, in order. -/
def filterArrGo (internal : JsValue) (cb : Callback) : List JsValue → Nat → List JsValue
  | [], _ => []
  | v :: rest, i =>
    if truthy (cb v (idxVal i) internal) then v :: filterArrGo internal cb rest (i + 1)
    else filterArrGo internal cb rest (i + 1)

/-- Filter loop over an object buffer (source ll.267-276): spread the
kept entry onto the accumulator. -/
def filterObjGo (internal : JsValue) (cb : Callback) :
    List (String × JsValue) → List (String × JsValue) → List (String × JsValue)
  | acc, [] => acc
  | acc, (k, v) :: rest =>
    if truthy (cb (.vStr k) v internal) then filterObjGo internal cb (objInsert acc k v) rest
    else filterObjGo internal cb acc rest

/-- The filter method (source ll.257-279): builds a fresh array or
object; a buffer that is neither returns the empty-object initial value. -/
def filter (internal : JsValue) (cb : Callback) : JsValue :=
  if isArray internal then .vArr (filterArrGo internal cb (arrElems internal) 0)
  else if isObject internal then .vObj (filterObjGo internal cb [] (forInEntries internal))
  else .vObj []

/-- CondenseMap loop over an array buffer (source ll.304-312): skip
undefined callback results, keep all others. -/
def condenseArrGo (internal : JsValue) (cb : Callback) : List JsValue → Nat → List JsValue
  | [], _ => []
  | v :: rest, i =>
    let data := cb v (idxVal i) internal
    if isUndefined data then condenseArrGo internal cb rest (i + 1)
    else data :: condenseArrGo internal cb rest (i + 1)

/-- CondenseMap loop over an object buffer (source ll.313-332): a
non-undefined result is first given to the host JSON parser (l.318, which
coerces the value to a string) with any failure rethrown; then an array
result throws an ObjockeyError and any other result is spread onto the
accumulator. -/
def condenseObjGo (internal : JsValue) (cb : Callback) :
    List (String × JsValue) → List (String × JsValue) →
    Except JsError (List (String × JsValue))
  | acc, [] => .ok acc
  | acc, (k, v) :: rest =>
    let data := cb (.vStr k) v internal
    if isUndefined data then condenseObjGo internal cb acc rest
    else
      match jsonParse (jsToString data) with
      | .error e => .error e
      | .ok _ =>
        if isArray data then
          .error (.objockeyError ("Cannot map a value of type \n                        " ++
            typeofJs data ++ " to an internal buffer of type object."))
        else condenseObjGo internal cb (spreadInto acc data) rest

/-- The condenseMap method (source ll.302-335). -/
def condenseMap (internal : JsValue) (cb : Callback) : Except JsError JsValue :=
  if isArray internal then .ok (.vArr (condenseArrGo internal cb (arrElems internal) 0))
  else if isObject internal then
    match condenseObjGo internal cb [] (forInEntries internal) with
    | .ok es => .ok (.vObj es)
    | .error e => .error e
  else .ok (.vObj [])

/-- Model of the JS expression x-or-else-undefined (source l.391
appends callback result or-else undefined): a falsy result becomes
undefined. -/
def jsOrUndefined (r : JsValue) : JsValue := if truthy r then r else .vUndefined

/-- Map loop over an array buffer (source ll.388-393): each callback
result is coerced through or-else undefined, and the third callback
argument is the new buffer accumulated so far, not the internal one. -/
def mapArrGo (cb : Callback) : List JsValue → Nat → List JsValue → List JsValue
  | [], _, acc => acc
  | v :: rest, i, acc =>
    mapArrGo cb rest (i + 1) (acc ++ [jsOrUndefined (cb v (idxVal i) (.vArr acc))])

/-- Map loop over a for-in enumeration (source ll.394-403): a falsy
callback result falls back to the single-entry object mapping the key to
null; the result is spread onto the accumulator. -/
def mapObjGo (internal : JsValue) (cb : Callback) :
    List (String × JsValue) → List (String × JsValue) → List (String × JsValue)
  | acc, [] => acc
  | acc, (k, v) :: rest =>
    let r := cb (.vStr k) v internal
    let data := if truthy r then r else .vObj [(k, .vNull)]
    mapObjGo internal cb (spreadInto acc data) rest

/-- The map method (source ll.385-406).  The second guard on l.394 reads
the method reference isObject without calling it, which is always truthy,
so every non-array buffer takes the object branch (whose for-in loop
enumerates nothing on most primitives). -/
def map (internal : JsValue) (cb : Callback) : JsValue :=
  if isArray internal then .vArr (mapArrGo cb (arrElems internal) 0 [])
  else .vObj (mapObjGo internal cb [] (forInEntries internal))

/-- The push method (source ll.422-442), returning the buffer after the
call and the optionally thrown error.  The cascade: both arrays
concatenate (ll.423-424); a truthy addition of typeof object onto a
buffer of typeof object (arrays and null included) spread-merges both
into a fresh plain object (ll.425-427); an array buffer appends any
other addition as one element (ll.428-433); otherwise a truthy addition
whose typeof differs from the buffer's throws (ll.434-439), and anything
else is silently ignored. -/
def push (internal buffer : JsValue) : JsValue × Option JsError :=
  match internal, buffer with
  | .vArr xs, .vArr ys => (.vArr (xs ++ ys), none)
  | .vArr xs, .vObj fs =>
    (.vObj (spreadInto (spreadInto [] (.vArr xs)) (.vObj fs)), none)
  | .vObj es, .vArr ys =>
    (.vObj (spreadInto (spreadInto [] (.vObj es)) (.vArr ys)), none)
  | .vObj es, .vObj fs =>
    (.vObj (spreadInto (spreadInto [] (.vObj es)) (.vObj fs)), none)
  | .vNull, .vArr ys => (.vObj (spreadInto (spreadInto [] .vNull) (.vArr ys)), none)
  | .vNull, .vObj fs => (.vObj (spreadInto (spreadInto [] .vNull) (.vObj fs)), none)
  | .vArr xs, b => (.vArr (xs ++ [b]), none)
  | other, b =>
    if truthy b && !(typeofJs b == typeofJs other) then
      (other, some (.objockeyError ("Cannot push data of type " ++ typeofJs b ++
        "\n                to an internal buffer of type " ++ typeofJs other)))
    else (other, none)

/-- Property key used by the replace method: an array index or a string
property name. -/
inductive PropKey : Type where
  | idx (n : Nat) : PropKey
  | str (s : String) : PropKey

/-- The replace method (source ll.454-456): write the callback of the
current value back to the key.  On an array an in-range index is
overwritten and a past-the-end index extends the array with undefined
holes; a non-index property on an array does not change the modelled
element data.  The module is strict mode, so the write on a primitive
buffer throws a TypeError, and the read on null or undefined throws. -/
def replace (internal : JsValue) (key : PropKey) (cb : JsValue → JsValue) :
    JsValue × Option JsError :=
  match internal with
  | .vArr es =>
    match key with
    | .idx n =>
      if n < es.length then (.vArr (es.set n (cb (es.getD n .vUndefined))), none)
      else (.vArr (es ++ List.replicate (n - es.length) .vUndefined ++ [cb .vUndefined]), none)
    | .str _ => (.vArr es, none)
  | .vObj es =>
    let k := match key with | .idx n => toString n | .str s => s
    (.vObj (objInsert es k (cb ((objLookup es k).getD .vUndefined))), none)
  | .vUndefined => (.vUndefined, some (.typeError "Cannot read properties of undefined"))
  | .vNull => (.vNull, some (.typeError "Cannot read properties of null"))
  | prim => (prim, some (.typeError "Cannot create property on a primitive value"))

/-- The set method (source ll.466-480), returning the buffer after the
call and the optionally thrown error.  Text is parsed first and assigned
only on success (ll.467-473, the catch rethrows before any assignment);
an array or non-null object is assigned directly (ll.474-475); anything
else throws without touching the buffer (ll.476-478). -/
def set (internal buffer : JsValue) : JsValue × Option JsError :=
  match buffer with
  | .vStr s =>
    (match jsonParse s with
     | .ok v => (v, none)
     | .error e => (internal, some e))
  | .vArr es => (.vArr es, none)
  | .vObj es => (.vObj es, none)
  | _ => (internal, some (.objockeyError "\"buffer\" must be of type string, object, or array."))

/-- Argument item for findIndexes2D: a JS value or a callable. -/
inductive CbArg : Type where
  | value (v : JsValue) : CbArg
  | func (f : Callback) : CbArg

/-- Per-callback loop of findIndexes2D over an array buffer (source
ll.156-162). -/
def fi2dArrGo (internal : JsValue) (f : Callback) : List JsValue → Nat → List JsValue
  | [], _ => []
  | v :: rest, i =>
    if truthy (f v (idxVal i) internal) then idxVal i :: fi2dArrGo internal f rest (i + 1)
    else fi2dArrGo internal f rest (i + 1)

/-- Per-callback loop of findIndexes2D over a for-in enumeration (source
ll.165-169). -/
def fi2dObjGo (internal : JsValue) (f : Callback) : List (String × JsValue) → List JsValue
  | [] => []
  | (k, v) :: rest =>
    if truthy (f (.vStr k) v internal) then .vStr k :: fi2dObjGo internal f rest
    else fi2dObjGo internal f rest

/-- Main loop of findIndexes2D (source ll.150-171): a non-callable item
throws; for an array buffer the per-callback set (or null when empty) is
appended to the result; for a buffer of typeof object the per-callback
set is filled (ll.165-169) but never appended — the push on l.163 sits
inside the array branch only — so the result gains nothing. -/
def fi2dGo (internal : JsValue) : List CbArg → Except JsError (List JsValue)
  | [] => .ok []
  | .value _ :: _ => .error (.objockeyError "\"callbacks\" must be an array of functions.")
  | .func f :: rest =>
    if isArray internal then
      let st := fi2dArrGo internal f (arrElems internal) 0
      match fi2dGo internal rest with
      | .ok tail => .ok ((if st.isEmpty then JsValue.vNull else .vArr st) :: tail)
      | .error e => .error e
    else if typeofJs internal == "object" then
      let _st := fi2dObjGo internal f (forInEntries internal)
      fi2dGo internal rest
    else fi2dGo internal rest

/-- The findIndexes2D method (source ll.145-173): a non-array argument
throws the invalid-argument ObjockeyError (ll.147-149). -/
def findIndexes2D (internal : JsValue) (callbacks : JsValue ⊕ List CbArg) :
    Except JsError (List JsValue) :=
  match callbacks with
  | Sum.inl _ => .error (.objockeyError "\"callbacks\" must be an array of functions.")
  | Sum.inr cbs => fi2dGo internal cbs

/-- Method-call view of filter: the buffer after the call paired with the
returned value; the method body (source ll.257-279) never assigns the
private field. -/
def filterCall (internal : JsValue) (cb : Callback) : JsValue × JsValue :=
  (internal, filter internal cb)

/-- Method-call view of map: the body (source ll.385-406) never assigns
the private field. -/
def mapCall (internal : JsValue) (cb : Callback) : JsValue × JsValue :=
  (internal, map internal cb)

/-- Method-call view of condenseMap: the body (source ll.302-335) never
assigns the private field. -/
def condenseMapCall (internal : JsValue) (cb : Callback) :
    JsValue × Except JsError JsValue :=
  (internal, condenseMap internal cb)

end ObjockeyObject

-- ## Spec-side shape predicates

/-- Shape predicate from the spec: the value is an ordered sequence or a
mapping. -/
def isSeqOrMap : JsValue → Bool
  | .vArr _ => true
  | .vObj _ => true
  | _ => false

/-- Spec invariant on the buffer: unset, or a sequence or mapping. -/
def PayloadOk (v : JsValue) : Prop := v = .vUndefined ∨ isSeqOrMap v = true

-- ## Claim theorems

open ObjockeyObject

/-- Claim C1 (code bug evaluation): construction from the already
structured sequence [1,2,3] leaves the buffer unset — the structured
branch returns before assigning the private field, contradicting its own
comment and the claimed direct adoption — while the empty string leaves
the buffer unset and malformed text does throw a SyntaxError that
propagates. -/
theorem construct_contract_check :
    construct (.vArr [.vNum 1, .vNum 2, .vNum 3]) = (.vUndefined, none)
  ∧ construct (.vStr "") = (.vUndefined, none)
  ∧ (∃ m, construct (.vStr "not json") = (.vUndefined, some (.syntaxError m)))
  ∧ (JsValue.vUndefined ≠ .vArr [.vNum 1, .vNum 2, .vNum 3]) :=
  ⟨rfl, rfl, ⟨_, rfl⟩, by simp⟩

/-- Claim C2 (code bug evaluation): every call of average throws a
ReferenceError, because the return statement reads the unbound
identifier named average instead of the accumulator named calculation;
it never returns the sum divided by the count. -/
theorem average_always_throws (internal : JsValue) (cb : Callback) :
    average internal cb = .error (.referenceError "average is not defined") := rfl

/-- Claim C4 (code bug evaluation): on selector results [1,2,3] the odd
branch indexes the sorted sequence at the non-integral position 1.5, an
absent property, so median returns a one-element sequence holding
undefined instead of the claimed element at position 1; the even branch
on [1,2,3,4] does return the elements at positions 2 and 3. -/
theorem median_odd_reads_absent_index :
    median (.vArr [.vNum 1, .vNum 2, .vNum 3]) (fun v _ _ => v) = .vArr [.vUndefined]
  ∧ median (.vArr [.vNum 1, .vNum 2, .vNum 3, .vNum 4]) (fun v _ _ => v)
      = .vArr [.vNum 3, .vNum 4]
  ∧ (JsValue.vArr [.vUndefined] ≠ .vArr [.vNum 2]) :=
  ⟨rfl, rfl, by simp⟩

/-- Claim C5 (code bug evaluation): on a mapping buffer a transform
result that is itself a mapping never merges — the body hands the result
value to the host JSON parser, which coerces it to the object tag string
and throws a SyntaxError — while an undefined result is omitted as
claimed, and a one-element sequence result does reach the
merge-shape-conflict ObjockeyError. -/
theorem condenseMap_mapping_result_check :
    (∃ m, condenseMap (.vObj [("k", .vNum 1)]) (fun _ _ _ => .vObj [("a", .vNum 1)])
        = .error (.syntaxError m))
  ∧ condenseMap (.vObj [("k", .vNum 1)]) (fun _ _ _ => .vUndefined) = .ok (.vObj [])
  ∧ (∃ m, condenseMap (.vObj [("k", .vNum 1)]) (fun _ _ _ => .vArr [.vNum 1])
        = .error (.objockeyError m)) :=
  ⟨⟨_, rfl⟩, rfl, ⟨_, rfl⟩⟩

/-- Claim C6 (code bug evaluation): on a mapping buffer the per-predicate
match set is computed but never appended — the append sits inside the
sequence branch only — so an always-true predicate over the mapping with
key a yields the empty result instead of the claimed singleton key set;
the sequence branch and the invalid-argument check behave as claimed. -/
theorem findIndexes2D_mapping_sets_dropped :
    findIndexes2D (.vObj [("a", .vNum 1)]) (Sum.inr [.func (fun _ _ _ => .vBool true)])
      = .ok []
  ∧ findIndexes2D (.vArr [.vNum 7]) (Sum.inr [.func (fun _ _ _ => .vBool true)])
      = .ok [.vArr [idxVal 0]]
  ∧ findIndexes2D (.vObj [("a", .vNum 1)]) (Sum.inl (.vStr "x"))
      = .error (.objockeyError "\"callbacks\" must be an array of functions.") :=
  ⟨rfl, rfl, rfl⟩

/-- Claim C3 counterexample: construction from the JSON text of the
scalar 5 leaves the buffer holding the number 5, which is neither a
sequence nor a mapping and is not unset, refuting the claimed shape
invariant for construction from text. -/
theorem construct_scalar_text_counterexample :
    construct (.vStr "5") = (.vNum 5, none)
  ∧ isSeqOrMap (.vNum 5) = false
  ∧ isUndefined (.vNum 5) = false :=
  ⟨rfl, rfl, rfl⟩

/-- Claim C7 counterexample: mapping the identity transform over the
one-element sequence [0] yields [undefined], because the body coerces
every callback result through a JS or-else with undefined, so the falsy
element 0 is not preserved at its position. -/
theorem map_falsy_counterexample :
    map (.vArr [.vNum 0]) (fun v _ _ => v) = .vArr [.vUndefined]
  ∧ (JsValue.vArr [.vUndefined] ≠ .vArr [.vNum 0]) :=
  ⟨rfl, by simp⟩

/-- Claim C8 counterexample: pushing the mapping with entry a onto the
sequence [1] does not append it as a single element — the object-merge
branch also catches sequence buffers (typeof object), so both are
spread-merged into a fresh mapping with the former index as a string
key. -/
theorem push_seq_mapping_counterexample :
    push (.vArr [.vNum 1]) (.vObj [("a", .vNum 1)])
      = (.vObj [("0", .vNum 1), ("a", .vNum 1)], none)
  ∧ (JsValue.vObj [("0", .vNum 1), ("a", .vNum 1)]
      ≠ .vArr [.vNum 1, .vObj [("a", .vNum 1)]]) :=
  ⟨rfl, by simp⟩

-- ## Helper lemmas

/-- The filter loop over an array equals an enumerate-filter-project
pipeline starting at the loop counter. -/
theorem filterArrGo_spec (internal : JsValue) (cb : Callback) (xs : List JsValue) (i : Nat) :
    filterArrGo internal cb xs i =
      ((List.enumFrom i xs).filter (fun p => truthy (cb p.2 (idxVal p.1) internal))).map
        Prod.snd := by
  induction xs generalizing i with
  | nil => rfl
  | cons v rest ih =>
    simp only [filterArrGo, List.enumFrom, List.filter]
    by_cases h : truthy (cb v (idxVal i) internal) <;> simp [h, ih]

/-- The map loop over an array, for a callback that ignores its buffer
argument, equals an enumerate-map pipeline appended to the accumulator. -/
theorem mapArrGo_spec (t : JsValue → JsValue → JsValue) (xs : List JsValue) (i : Nat)
    (acc : List JsValue) :
    mapArrGo (fun v j _ => t v j) xs i acc =
      acc ++ (List.enumFrom i xs).map (fun p => jsOrUndefined (t p.2 (idxVal p.1))) := by
  induction xs generalizing i acc with
  | nil => simp [mapArrGo]
  | cons v rest ih => simp [mapArrGo, List.enumFrom, ih]

/-- Property read after a property write. -/
theorem objLookup_objInsert (l : List (String × JsValue)) (k : String) (v : JsValue)
    (k2 : String) :
    objLookup (objInsert l k v) k2 = if k2 = k then some v else objLookup l k2 := by
  induction l with
  | nil => simp [objInsert, objLookup]
  | cons p rest ih =>
    obtain ⟨k1, v1⟩ := p
    by_cases h1 : k1 = k
    · subst h1
      by_cases h2 : k2 = k1 <;> simp [objInsert, objLookup, h2]
    · by_cases h2 : k2 = k1 <;> by_cases h3 : k2 = k <;>
        simp_all [objInsert, objLookup]

/-- A key absent from the entry list reads as none. -/
theorem objLookup_eq_none (l : List (String × JsValue)) (k : String)
    (h : k ∉ l.map Prod.fst) : objLookup l k = none := by
  induction l with
  | nil => rfl
  | cons p rest ih =>
    obtain ⟨k1, v1⟩ := p
    simp only [List.map, List.mem_cons] at h
    push_neg at h
    simp [objLookup, h.1, ih h.2]

/-- Reading a key after spreading a duplicate-free entry list onto an
accumulator: an entry of the spread list wins, otherwise the accumulator
answers. -/
theorem objLookup_spreadEntries (l acc : List (String × JsValue)) (k : String)
    (hl : (l.map Prod.fst).Nodup) :
    objLookup (spreadEntries acc l) k =
      (match objLookup l k with
       | some v => some v
       | none => objLookup acc k) := by
  induction l generalizing acc with
  | nil => simp [spreadEntries, objLookup]
  | cons p rest ih =>
    obtain ⟨k1, v1⟩ := p
    simp only [List.map, List.nodup_cons] at hl
    rw [spreadEntries, ih _ hl.2]
    by_cases h : k = k1
    · subst h
      rw [objLookup_eq_none rest k hl.1]
      simp [objLookup, objLookup_objInsert]
    · simp only [objLookup, if_neg h]
      cases objLookup rest k <;> simp [objLookup_objInsert, h]

/-- Reading a key in the merge of two duplicate-free entry lists (the
push merge branch): entries of the second list overwrite the first. -/
theorem objLookup_merge (es fs : List (String × JsValue)) (k : String)
    (hes : (es.map Prod.fst).Nodup) (hfs : (fs.map Prod.fst).Nodup) :
    objLookup (spreadEntries (spreadEntries [] es) fs) k =
      (match objLookup fs k with
       | some v => some v
       | none => objLookup es k) := by
  rw [objLookup_spreadEntries fs _ k hfs, objLookup_spreadEntries es [] k hes]
  cases objLookup fs k <;> cases objLookup es k <;> simp [objLookup]

/-- Reading a key after spreading an arbitrary entry list onto an
accumulator: the last spread entry carrying the key wins, otherwise the
accumulator answers. -/
theorem objLookup_spreadEntries_last (l acc : List (String × JsValue)) (k : String) :
    objLookup (spreadEntries acc l) k =
      (match objLookupLast l k with
       | some v => some v
       | none => objLookup acc k) := by
  induction l generalizing acc with
  | nil => simp [spreadEntries, objLookupLast]
  | cons p rest ih =>
    obtain ⟨k1, v1⟩ := p
    rw [spreadEntries, ih]
    simp only [objLookupLast]
    cases objLookupLast rest k with
    | some v => rfl
    | none => by_cases h : k = k1 <;> simp [objLookup_objInsert, h]

/-- Spreading an entry list over the empty accumulator reads as the
last-entry-wins lookup. -/
theorem objLookup_spread_nil (l : List (String × JsValue)) (k : String) :
    objLookup (spreadEntries [] l) k = objLookupLast l k := by
  rw [objLookup_spreadEntries_last]
  cases objLookupLast l k <;> simp [objLookup]

/-- Reading a key in the spread-merge of two arbitrary entry lists over
the empty accumulator (the push merge branch): the second list wins,
with last-entry-wins inside each list. -/
theorem objLookup_merge_last (l1 l2 : List (String × JsValue)) (k : String) :
    objLookup (spreadEntries (spreadEntries [] l1) l2) k =
      (match objLookupLast l2 k with
       | some v => some v
       | none => objLookupLast l1 k) := by
  rw [objLookup_spreadEntries_last, objLookup_spread_nil]

/-- The buffer after push is either unchanged or a sequence or mapping. -/
theorem push_fst_shape (internal buffer : JsValue) :
    (push internal buffer).1 = internal ∨ isSeqOrMap (push internal buffer).1 = true := by
  cases internal <;> cases buffer <;>
    simp [push, isSeqOrMap, apply_ite Prod.fst]

/-- The buffer after replace is either unchanged or a sequence or
mapping. -/
theorem replace_fst_shape (internal : JsValue) (key : PropKey) (cb : JsValue → JsValue) :
    (replace internal key cb).1 = internal ∨
      isSeqOrMap (replace internal key cb).1 = true := by
  cases internal with
  | vArr es =>
    cases key with
    | idx n =>
      right
      by_cases h : n < es.length <;> simp [replace, isSeqOrMap, h]
    | str s => exact Or.inr rfl
  | vObj es => exact Or.inr rfl
  | vUndefined => exact Or.inl rfl
  | vNull => exact Or.inl rfl
  | vBool b => exact Or.inl rfl
  | vNum n => exact Or.inl rfl
  | vStr s => exact Or.inl rfl

/-- The constructor catch logic keeps the invariant whenever a parsed
value is a sequence or mapping. -/
theorem constructParse_ok (r : Except JsError JsValue)
    (h : ∀ v, r = .ok v → isSeqOrMap v = true) :
    PayloadOk (constructParse r).1 := by
  cases r with
  | ok v => exact Or.inr (h v rfl)
  | error e => cases e <;> exact Or.inl rfl

-- ## Remaining claim theorems

/-- Claim C3 (amended): the shape invariant holds for every operation
except text parsing — push and replace always keep the buffer unset or a
sequence or mapping, and set and the constructor keep it whenever every
parsed text denotes a sequence or mapping; but parsing scalar JSON text
(such as the text of the number 5, see the counterexample) leaves a
scalar buffer. -/
theorem payload_shape_preserved (internal buffer source : JsValue) (key : PropKey)
    (cb : JsValue → JsValue)
    (hint : PayloadOk internal)
    (hbuf : ∀ t v, buffer = .vStr t → jsonParse t = .ok v → isSeqOrMap v = true)
    (hsrc : ∀ v, jsonParse (jsToString source) = .ok v → isSeqOrMap v = true) :
    PayloadOk (push internal buffer).1
  ∧ PayloadOk (replace internal key cb).1
  ∧ PayloadOk (set internal buffer).1
  ∧ PayloadOk (construct source).1 := by
  refine ⟨?_, ?_, ?_, ?_⟩
  · rcases push_fst_shape internal buffer with h | h
    · rw [h]; exact hint
    · exact Or.inr h
  · rcases replace_fst_shape internal key cb with h | h
    · rw [h]; exact hint
    · exact Or.inr h
  · cases buffer with
    | vStr s =>
      cases hp : jsonParse s with
      | ok v =>
        have hred : (set internal (.vStr s)).1 = v := by
          simp [ObjockeyObject.set, hp]
        rw [hred]; exact Or.inr (hbuf s v rfl hp)
      | error e =>
        have hred : (set internal (.vStr s)).1 = internal := by
          simp [ObjockeyObject.set, hp]
        rw [hred]; exact hint
    | vArr es2 => exact Or.inr rfl
    | vObj es2 => exact Or.inr rfl
    | vUndefined => exact hint
    | vNull => exact hint
    | vBool b2 => exact hint
    | vNum n2 => exact hint
  · cases source with
    | vArr es2 => exact Or.inl rfl
    | vObj es2 => exact Or.inl rfl
    | vStr s =>
      by_cases hs : s = ""
      · subst hs; exact Or.inl rfl
      · have hred : construct (.vStr s) = constructParse (jsonParse s) := by
          simp [construct, hs]
        rw [hred]
        exact constructParse_ok _ (fun v hv => hsrc v hv)
    | vUndefined => exact constructParse_ok _ (fun v hv => hsrc v hv)
    | vNull => exact constructParse_ok _ (fun v hv => hsrc v hv)
    | vBool b2 => exact constructParse_ok _ (fun v hv => hsrc v hv)
    | vNum n2 => exact constructParse_ok _ (fun v hv => hsrc v hv)

/-- Witness for claim C3: the amended invariant applied to a sequence
buffer with a mapping addition, an index replace, a mapping set argument
and construction from the text of the empty sequence. -/
theorem payload_shape_preserved_witness :
    PayloadOk (push (.vArr []) (.vObj [("a", .vNum 1)])).1
  ∧ PayloadOk (replace (.vArr []) (.idx 0) id).1
  ∧ PayloadOk (set (.vArr []) (.vObj [("a", .vNum 1)])).1
  ∧ PayloadOk (construct (.vStr "[]")).1 :=
  payload_shape_preserved (.vArr []) (.vObj [("a", .vNum 1)]) (.vStr "[]") (.idx 0) id
    (Or.inr rfl)
    (fun _ _ ht _ => nomatch ht)
    (fun v hv => by
      have hp : jsonParse (jsToString (JsValue.vStr "[]")) = .ok (.vArr []) := rfl
      rw [hp] at hv
      cases hv
      rfl)

/-- Claim C7 (amended): on a sequence buffer, map returns a new sequence
whose element at each position is the transform result for the source
element at that position when that result is truthy, and the absent
placeholder (undefined) otherwise — falsy results such as 0, false, the
empty string or null are replaced by the placeholder, not preserved
(stated for transforms of the element and position, as the body passes
its own accumulator as the third callback argument). -/
theorem map_seq_positional (es : List JsValue) (t : JsValue → JsValue → JsValue) :
    map (.vArr es) (fun v i _ => t v i) =
      .vArr (es.enum.map (fun p => jsOrUndefined (t p.2 (idxVal p.1)))) := by
  simp [map, isArray, arrElems, mapArrGo_spec, List.enum]

/-- Claim C8 (amended): push concatenates two sequences in order; a
non-null mapping or sequence addition onto a buffer of JS object type —
mapping, sequence or null — spread-merges both into a fresh mapping
whose entries the addition overwrites on key collision (stated by
property lookup for every combination: last entry wins, and on the
duplicate-free lists real JS objects produce this is plain lookup), so
pushing the mapping a-to-2 onto a-to-1 yields a-to-2, and a mapping
addition onto a sequence buffer becomes a mapping with the former
indices as string keys rather than an appended element; a sequence
buffer appends every other addition (null, undefined or scalar) as one
new element; a truthy addition whose JS type differs from that of a
scalar or unset buffer throws the type-mismatch error, and every other
push onto a scalar or unset buffer is a silent no-op. -/
theorem push_branch_contract (xs ys : List JsValue) (es fs : List (String × JsValue))
    (k : String) (p b : JsValue)
    (hes : (es.map Prod.fst).Nodup) (hfs : (fs.map Prod.fst).Nodup)
    (hp : typeofJs p ≠ "object") :
    push (.vArr xs) (.vArr ys) = (.vArr (xs ++ ys), none)
  ∧ (push (.vObj es) (.vObj fs)).2 = none
  ∧ objLookup (objEntries (push (.vObj es) (.vObj fs)).1) k =
      (match objLookup fs k with
       | some v => some v
       | none => objLookup es k)
  ∧ push (.vObj [("a", .vNum 1)]) (.vObj [("a", .vNum 2)]) = (.vObj [("a", .vNum 2)], none)
  ∧ (∃ gs, push (.vArr xs) (.vObj fs) = (.vObj gs, none)
      ∧ objLookup gs k =
          (match objLookupLast fs k with
           | some v => some v
           | none => objLookupLast (forInEntries (.vArr xs)) k))
  ∧ (∃ gs, push (.vObj es) (.vArr ys) = (.vObj gs, none)
      ∧ objLookup gs k =
          (match objLookupLast (forInEntries (.vArr ys)) k with
           | some v => some v
           | none => objLookupLast es k))
  ∧ (∃ gs, push .vNull (.vObj fs) = (.vObj gs, none)
      ∧ objLookup gs k = objLookupLast fs k)
  ∧ (∃ gs, push .vNull (.vArr ys) = (.vObj gs, none)
      ∧ objLookup gs k = objLookupLast (forInEntries (.vArr ys)) k)
  ∧ (isSeqOrMap b = false → push (.vArr xs) b = (.vArr (xs ++ [b]), none))
  ∧ (truthy b = true → typeofJs b ≠ typeofJs p →
      ∃ m, push p b = (p, some (.objockeyError m)))
  ∧ (truthy b = false ∨ typeofJs b = typeofJs p → push p b = (p, none)) := by
  refine ⟨rfl, rfl, objLookup_merge es fs k hes hfs, rfl,
    ⟨_, rfl, objLookup_merge_last (forInEntries (.vArr xs)) fs k⟩,
    ⟨_, rfl, objLookup_merge_last es (forInEntries (.vArr ys)) k⟩,
    ⟨_, rfl, objLookup_spread_nil fs k⟩,
    ⟨_, rfl, objLookup_spread_nil (forInEntries (.vArr ys)) k⟩,
    ?_, ?_, ?_⟩
  · intro hb
    cases b <;> first | rfl | simp_all [isSeqOrMap]
  · intro ht hn
    cases p <;> try (exact absurd rfl hp)
    all_goals cases b <;> simp_all [push, truthy, typeofJs]
  · intro h
    cases p <;> try (exact absurd rfl hp)
    all_goals cases b <;> rcases h with h | h <;> simp_all [push, truthy, typeofJs]

/-- Witness for claim C8: the contract applied to concrete sequences,
duplicate-free mappings and a number buffer with a boolean addition. -/
theorem push_branch_contract_witness :
    push (.vArr [.vNum 1]) (.vArr [.vNum 2]) = (.vArr [.vNum 1, .vNum 2], none) :=
  (push_branch_contract [.vNum 1] [.vNum 2] [("x", .vNum 1)] [("x", .vNum 2)] "x"
    (.vNum 3) (.vBool true) (by simp) (by simp) (by decide)).1

/-- Claim C9: on a sequence buffer, filter returns exactly the elements
whose predicate call is truthy, in their original order (stated as an
enumerate-filter-project pipeline), and the buffer after a filter, map
or condenseMap call is unchanged — the method bodies never assign the
private field. -/
theorem filter_transforms_pure (es : List JsValue) (cb : Callback) (internal : JsValue) :
    (filterCall (.vArr es) cb).2 =
      .vArr ((es.enum.filter (fun p => truthy (cb p.2 (idxVal p.1) (.vArr es)))).map
        Prod.snd)
  ∧ (filterCall internal cb).1 = internal
  ∧ (mapCall internal cb).1 = internal
  ∧ (condenseMapCall internal cb).1 = internal := by
  refine ⟨?_, rfl, rfl, rfl⟩
  simp [filterCall, filter, isArray, arrElems, filterArrGo_spec, List.enum]

/-- Claim C10: whenever set throws — malformed JSON text, or an argument
that is neither text nor a sequence nor a non-null mapping — the buffer
is unchanged afterwards: parsing and argument validation happen before
any assignment. -/
theorem set_error_leaves_payload (internal buffer : JsValue)
    (h : (set internal buffer).2 ≠ none) :
    (set internal buffer).1 = internal := by
  cases buffer with
  | vStr s =>
    cases hp : jsonParse s with
    | ok v => exact absurd (by simp [ObjockeyObject.set, hp]) h
    | error e => simp [ObjockeyObject.set, hp]
  | vArr es => exact absurd (by simp [ObjockeyObject.set]) h
  | vObj es => exact absurd (by simp [ObjockeyObject.set]) h
  | vUndefined => rfl
  | vNull => rfl
  | vBool b => rfl
  | vNum n => rfl

/-- Witness for claim C10: set with malformed text throws and the buffer
keeps its previous value. -/
theorem set_error_leaves_payload_witness :
    (set (.vArr [.vNum 1]) (.vStr "not json")).1 = .vArr [.vNum 1] :=
  set_error_leaves_payload (.vArr [.vNum 1]) (.vStr "not json") (by decide)

end Objockey
